import Mathlib

/-!
Verification of the settings persistence component of `generalpy`
(`src/generalpy/settings.py`, class `Settings`).

The embedding models:
  - Python values that can live in a settings dict (`PyValue`): the JSON
    scalars, lists and string-keyed dicts, plus `PyValue.obj`, an opaque
    non-JSON-serializable Python object (anything `json.dump` rejects).
  - the settings file on disk (`FileState`): absent, syntactically invalid
    JSON text (this also covers the truncated partial output that a failed
    streaming `json.dump` leaves behind), or valid JSON text whose parse is
    a given value.  Valid JSON text is modelled at the parsed-value level;
    the store always writes with `indent=4, sort_keys=True`, so the written
    text is a function of the dumped value.
  - a log of attempted `json.dump` calls (`FS.writes`), so that "the file
    was not rewritten" can be stated as "no write system call happened".

Python dicts are insertion-ordered string-keyed association lists without
duplicate keys; `Entries` is that association list.
-/

inductive PyValue where
  | null
  | bool (b : Bool)
  | int (n : Int)
  | str (s : String)
  | list (items : List PyValue)
  | dict (entries : List (String × PyValue))
  | obj (id : Nat)
deriving Repr

abbrev Entries := List (String × PyValue)

/-- Lookup in a Python dict: value of the first entry with the given key. -/
def getEntry? : Entries → String → Option PyValue
  | [], _ => none
  | p :: rest, key => if p.1 = key then some p.2 else getEntry? rest key

/-- Key membership in a Python dict. -/
def hasKey : Entries → String → Bool
  | [], _ => false
  | p :: rest, key => if p.1 = key then true else hasKey rest key

/-- Python dict item assignment `d[key] = v`: replaces the value of an
existing key in place, otherwise appends the new entry at the end
(insertion order). -/
def setEntry : Entries → String → PyValue → Entries
  | [], key, v => [(key, v)]
  | p :: rest, key, v => if p.1 = key then (key, v) :: rest else p :: setEntry rest key v

mutual

/-- Whether `json.dump` accepts the value (`True` for the JSON-representable
values, `False` as soon as an opaque object occurs anywhere inside). -/
def serializable : PyValue → Bool
  | .null => true
  | .bool _ => true
  | .int _ => true
  | .str _ => true
  | .list items => serializableList items
  | .dict entries => serializableEntries entries
  | .obj _ => false

def serializableList : List PyValue → Bool
  | [] => true
  | v :: rest => serializable v && serializableList rest

def serializableEntries : List (String × PyValue) → Bool
  | [] => true
  | p :: rest => serializable p.2 && serializableEntries rest

end

/-- State of the settings file on disk.
`invalid` is any content that `json.load` rejects with `JSONDecodeError`
(corrupt text, an empty file, or the truncated partial output left by a
`json.dump` that raised half-way); `json v` is valid JSON text parsing to
`v`. -/
inductive FileState where
  | absent
  | invalid
  | json (v : PyValue)
deriving Repr

/-- The filesystem as the store sees it: the settings file plus a log of
every `json.dump` call attempted on it (payloads, oldest first). -/
structure FS where
  file : FileState
  writes : List PyValue
deriving Repr

/-- `Settings._save_settings`: create parent directories, open the file in
`'w'` mode (truncating it), and stream-serialize with `json.dump(...,
indent=4, sort_keys=True)`.  If the value is serializable the file now holds
its JSON text; otherwise `json.dump` raises `TypeError` after having already
written a strict prefix of the output into the truncated file, so the file
is left with invalid JSON.  Returns the new filesystem and whether the dump
succeeded. -/
def save_settings (settings : PyValue) (fs : FS) : FS × Bool :=
  if serializable settings then
    ({ file := .json settings, writes := fs.writes ++ [settings] }, true)
  else
    ({ file := .invalid, writes := fs.writes ++ [settings] }, false)

/-- Python exceptions that the modelled code can raise. -/
inductive PyErr where
  | typeError
  | attributeError
deriving Repr, DecidableEq

/-- Whether the pattern occurs at the head of the character list. -/
def listLeadEq : List Char → List Char → Bool
  | [], _ => true
  | _ :: _, [] => false
  | a :: asr, b :: bs => a == b && listLeadEq asr bs

/-- Whether the pattern occurs contiguously anywhere in the character list. -/
def listHasRun (pat : List Char) : List Char → Bool
  | [] => listLeadEq pat []
  | c :: rest => listLeadEq pat (c :: rest) || listHasRun pat rest

/-- Python substring test `pat in s`. -/
def strHasSub (s pat : String) : Bool := listHasRun pat.toList s.toList

/-- Python `key in container` for a string key: substring test on `str`,
element equality on `list`, key membership on `dict`, `TypeError` on the
non-container scalars. -/
def pyContains (container : PyValue) (key : String) : Except PyErr Bool :=
  match container with
  | .str s => .ok (strHasSub s key)
  | .list items => .ok (items.any fun v => match v with | .str s => s == key | _ => false)
  | .dict entries => .ok (hasKey entries key)
  | _ => .error .typeError

/-- Python `container[key] = v` for a string key: dict assignment; `str`,
`list` and the scalars raise `TypeError` for a string index. -/
def pySetItem (container : PyValue) (key : String) (v : PyValue) : Except PyErr PyValue :=
  match container with
  | .dict entries => .ok (.dict (setEntry entries key v))
  | _ => .error .typeError

/-- The back-fill loop of `Settings._load_settings`:
`for key in self.default_settings: if key not in settings:
settings[key] = self.default_settings[key]; self._save_settings(settings)`.
The file is rewritten inside the loop, once per inserted key.  Exceptions
other than `JSONDecodeError` (none of which can be one) propagate. -/
def backfill : List (String × PyValue) → PyValue → FS → FS × Except PyErr PyValue
  | [], settings, fs => (fs, .ok settings)
  | (key, dv) :: rest, settings, fs =>
    match pyContains settings key with
    | .error e => (fs, .error e)
    | .ok true => backfill rest settings fs
    | .ok false =>
      match pySetItem settings key dv with
      | .error e => (fs, .error e)
      | .ok updated =>
        match save_settings updated fs with
        | (fs', true) => backfill rest updated fs'
        | (fs', false) => (fs', .error .typeError)

/-- `Settings._load_settings`: if the file is missing, save the defaults and
return a copy of them; otherwise `json.load` it — on `JSONDecodeError` save
the defaults and return a copy of them, on parse success run the back-fill
loop on the parsed value. -/
def load_settings (defaults : Entries) (fs : FS) : FS × Except PyErr PyValue :=
  match fs.file with
  | .absent =>
    match save_settings (.dict defaults) fs with
    | (fs', true) => (fs', .ok (.dict defaults))
    | (fs', false) => (fs', .error .typeError)
  | .invalid =>
    match save_settings (.dict defaults) fs with
    | (fs', true) => (fs', .ok (.dict defaults))
    | (fs', false) => (fs', .error .typeError)
  | .json v => backfill defaults v fs

/-- The fields of a `Settings` instance that the modelled operations read:
the constructor arguments `default_settings` and `hard_fetch`, and the
in-memory mapping `self._settings` (which `json.load` may in principle make
a non-dict value). -/
structure Store where
  default_settings : Entries
  hard_fetch : Bool
  _settings : PyValue
deriving Repr

/-- `Settings.__init__`: store the arguments and run
`self._settings = self._load_settings()`; a raised exception propagates and
no instance is produced. -/
def Settings.init (default_settings : Entries) (hard_fetch : Bool) (fs : FS) :
    FS × Except PyErr Store :=
  match load_settings default_settings fs with
  | (fs', .ok s) =>
    (fs', .ok { default_settings := default_settings, hard_fetch := hard_fetch, _settings := s })
  | (fs', .error e) => (fs', .error e)

/-- `Settings._reload_settings`: before the wrapped method runs, if
`hard_fetch` then `self._settings = self._load_settings()`; if the load
raises, the assignment does not happen and the exception propagates. -/
def reload_settings (st : Store) (fs : FS) : FS × Store × Option PyErr :=
  if st.hard_fetch then
    match load_settings st.default_settings fs with
    | (fs', .ok s) => (fs', { st with _settings := s }, none)
    | (fs', .error e) => (fs', st, some e)
  else (fs, st, none)

/-- Python `self._settings.get(key, default)`: only dicts have a `get`
method; on any other value attribute lookup raises `AttributeError`. -/
def pyDictGet (v : PyValue) (key : String) (dflt : PyValue) : Except PyErr PyValue :=
  match v with
  | .dict entries => .ok ((getEntry? entries key).getD dflt)
  | _ => .error .attributeError

/-- `Settings.get_setting` (decorated with `_reload_settings`):
returns `self._settings.get(key, default)`. -/
def get_setting (st : Store) (fs : FS) (key : String) (dflt : PyValue) :
    FS × Store × Except PyErr PyValue :=
  match reload_settings st fs with
  | (fs', st', none) => (fs', st', pyDictGet st'._settings key dflt)
  | (fs', st', some e) => (fs', st', .error e)

/-- `Settings.get_all_settings` (decorated with `_reload_settings`):
returns `self._settings`. -/
def get_all_settings (st : Store) (fs : FS) : FS × Store × Except PyErr PyValue :=
  match reload_settings st fs with
  | (fs', st', none) => (fs', st', .ok st'._settings)
  | (fs', st', some e) => (fs', st', .error e)

/-- `Settings.update_setting` (decorated with `_reload_settings`):
`self._settings[key] = value` and then `self._save_settings(self._settings)`.
The in-memory assignment happens before the save is attempted; a failed
save raises after the assignment already took effect.  Returns `.ok .null`
(Python `None`) on success. -/
def update_setting (st : Store) (fs : FS) (key : String) (value : PyValue) :
    FS × Store × Except PyErr PyValue :=
  match reload_settings st fs with
  | (fs', st', some e) => (fs', st', .error e)
  | (fs', st', none) =>
    match pySetItem st'._settings key value with
    | .error e => (fs', st', .error e)
    | .ok s' =>
      match save_settings s' fs' with
      | (fs'', true) => (fs'', { st' with _settings := s' }, .ok .null)
      | (fs'', false) => (fs'', { st' with _settings := s' }, .error .typeError)

/-- `Settings.reset` (not decorated): `self._settings =
dict(self.default_settings)` and then `self._save_settings(self._settings)`. -/
def reset (st : Store) (fs : FS) : FS × Store × Except PyErr PyValue :=
  let st' := { st with _settings := .dict st.default_settings }
  match save_settings st'._settings fs with
  | (fs', true) => (fs', st', .ok .null)
  | (fs', false) => (fs', st', .error .typeError)

/-- One public operation of the API that the claims quantify over. -/
inductive Op where
  | get (key : String) (dflt : PyValue)
  | getAll
  | update (key : String) (value : PyValue)
  | reset
deriving Repr

def runOp (st : Store) (fs : FS) : Op → FS × Store × Except PyErr PyValue
  | .get key dflt => get_setting st fs key dflt
  | .getAll => get_all_settings st fs
  | .update key value => update_setting st fs key value
  | .reset => reset st fs

/-- Run a sequence of operations on a constructed store, collecting each
operation's outcome. -/
def runOps (st : Store) (fs : FS) : List Op → FS × Store × List (Except PyErr PyValue)
  | [] => (fs, st, [])
  | op :: rest =>
    let r := runOp st fs op
    let rs := runOps r.2.1 r.1 rest
    (rs.1, rs.2.1, r.2.2 :: rs.2.2)

/-! ### Pure lemmas about dict entries -/

theorem hasKey_of_getEntry {d : Entries} {k : String} {v : PyValue}
    (h : getEntry? d k = some v) : hasKey d k = true := by
  induction d with
  | nil => simp [getEntry?] at h
  | cons p rest ih =>
    by_cases hk : p.1 = k
    · simp [hasKey, hk]
    · simp [getEntry?, hk] at h
      simp [hasKey, hk, ih h]

theorem getEntry?_eq_none_of_not_hasKey {d : Entries} {k : String}
    (h : hasKey d k = false) : getEntry? d k = none := by
  induction d with
  | nil => simp [getEntry?]
  | cons p rest ih =>
    by_cases hk : p.1 = k
    · simp [hasKey, hk] at h
    · simp [hasKey, hk] at h
      simp [getEntry?, hk, ih h]

theorem hasKey_of_mem {d : Entries} {p : String × PyValue}
    (h : p ∈ d) : hasKey d p.1 = true := by
  induction d with
  | nil => simp at h
  | cons q rest ih =>
    rcases List.mem_cons.mp h with h | h
    · simp [hasKey, h]
    · by_cases hk : q.1 = p.1 <;> simp [hasKey, hk, ih h]

theorem hasKey_setEntry_self (d : Entries) (k : String) (v : PyValue) :
    hasKey (setEntry d k v) k = true := by
  induction d with
  | nil => simp [setEntry, hasKey]
  | cons p rest ih =>
    by_cases hk : p.1 = k <;> simp [setEntry, hasKey, hk, ih]

theorem hasKey_setEntry_other {k k0 : String} (hne : k ≠ k0) (d : Entries) (v : PyValue) :
    hasKey (setEntry d k0 v) k = hasKey d k := by
  induction d with
  | nil => simp [setEntry, hasKey, Ne.symm hne]
  | cons p rest ih =>
    by_cases hpk0 : p.1 = k0
    · simp [setEntry, hasKey, hpk0, Ne.symm hne]
    · simp [setEntry, hasKey, hpk0, ih]

theorem hasKey_setEntry_mono {d : Entries} {k : String}
    (h : hasKey d k = true) (k0 : String) (v : PyValue) :
    hasKey (setEntry d k0 v) k = true := by
  by_cases hk : k = k0
  · exact hk ▸ hasKey_setEntry_self d k v
  · rw [hasKey_setEntry_other hk]; exact h

theorem getEntry?_setEntry_self (d : Entries) (k : String) (v : PyValue) :
    getEntry? (setEntry d k v) k = some v := by
  induction d with
  | nil => simp [setEntry, getEntry?]
  | cons p rest ih =>
    by_cases hk : p.1 = k <;> simp [setEntry, getEntry?, hk, ih]

theorem getEntry?_setEntry_other {k k0 : String} (hne : k ≠ k0) (d : Entries) (v : PyValue) :
    getEntry? (setEntry d k0 v) k = getEntry? d k := by
  induction d with
  | nil => simp [setEntry, getEntry?, Ne.symm hne]
  | cons p rest ih =>
    by_cases hpk0 : p.1 = k0
    · simp [setEntry, getEntry?, hpk0, Ne.symm hne]
    · simp [setEntry, getEntry?, hpk0, ih]

/-! ### Lemmas about serializability -/

theorem serializable_of_mem_entries {d : Entries} (h : serializableEntries d = true)
    {p : String × PyValue} (hp : p ∈ d) : serializable p.2 = true := by
  induction d with
  | nil => simp at hp
  | cons q rest ih =>
    rw [serializableEntries, Bool.and_eq_true] at h
    rcases List.mem_cons.mp hp with hp | hp
    · exact hp ▸ h.1
    · exact ih h.2 hp

theorem serializableEntries_setEntry {d : Entries} {v : PyValue}
    (hd : serializableEntries d = true) (hv : serializable v = true) (k : String) :
    serializableEntries (setEntry d k v) = true := by
  induction d with
  | nil => simp [setEntry, serializableEntries, hv]
  | cons p rest ih =>
    rw [serializableEntries, Bool.and_eq_true] at hd
    by_cases hk : p.1 = k <;>
      simp [setEntry, hk, serializableEntries, hd.1, hd.2, hv, ih hd.2]

theorem serializableEntries_setEntry_false {v : PyValue}
    (hv : serializable v = false) (d : Entries) (k : String) :
    serializableEntries (setEntry d k v) = false := by
  induction d with
  | nil => simp [setEntry, serializableEntries, hv]
  | cons p rest ih =>
    by_cases hk : p.1 = k <;> simp [setEntry, hk, serializableEntries, hv, ih]

/-! ### The back-fill loop as a pure function on dict entries

`patch d pending` is the dict that the back-fill loop of
`Settings._load_settings` turns the parsed dict `d` into, when iterating
over the `pending` default entries. -/

def patch (d : Entries) : List (String × PyValue) → Entries
  | [] => d
  | (k, dv) :: rest =>
    if hasKey d k then patch d rest else patch (setEntry d k dv) rest

theorem patch_hasKey_mono {d : Entries} {k : String} (h : hasKey d k = true) :
    ∀ pending, hasKey (patch d pending) k = true := by
  intro pending
  induction pending generalizing d with
  | nil => rw [patch]; exact h
  | cons q rest ih =>
    rcases q with ⟨k0, dv⟩
    by_cases hk0 : hasKey d k0 = true
    · rw [patch, if_pos hk0]; exact ih h
    · rw [patch, if_neg hk0]; exact ih (hasKey_setEntry_mono h k0 dv)

theorem patch_hasKey_pending (d : Entries) (pending : List (String × PyValue))
    {p : String × PyValue} (hp : p ∈ pending) :
    hasKey (patch d pending) p.1 = true := by
  induction pending generalizing d with
  | nil => simp at hp
  | cons q rest ih =>
    rcases q with ⟨k0, dv⟩
    rcases List.mem_cons.mp hp with hp | hp
    · subst hp
      by_cases hk0 : hasKey d k0 = true
      · rw [patch, if_pos hk0]; exact patch_hasKey_mono hk0 rest
      · rw [patch, if_neg hk0]
        exact patch_hasKey_mono (hasKey_setEntry_self d k0 dv) rest
    · by_cases hk0 : hasKey d k0 = true
      · rw [patch, if_pos hk0]; exact ih d hp
      · rw [patch, if_neg hk0]; exact ih _ hp

theorem patch_getEntry_present {d : Entries} {k : String} (h : hasKey d k = true) :
    ∀ pending, getEntry? (patch d pending) k = getEntry? d k := by
  intro pending
  induction pending generalizing d with
  | nil => rw [patch]
  | cons q rest ih =>
    rcases q with ⟨k0, dv⟩
    by_cases hk0 : hasKey d k0 = true
    · rw [patch, if_pos hk0]; exact ih h
    · have hne : k ≠ k0 := fun he => hk0 (he ▸ h)
      rw [patch, if_neg hk0, ih (hasKey_setEntry_mono h k0 dv),
        getEntry?_setEntry_other hne]

theorem patch_getEntry_missing {d : Entries} {k : String} (h : hasKey d k = false) :
    ∀ pending, getEntry? (patch d pending) k = getEntry? pending k := by
  intro pending
  induction pending generalizing d with
  | nil => rw [patch, getEntry?_eq_none_of_not_hasKey h]; rfl
  | cons q rest ih =>
    rcases q with ⟨k0, dv⟩
    by_cases hk : k0 = k
    · subst hk
      rw [patch, if_neg (by simp [h]),
        patch_getEntry_present (hasKey_setEntry_self d k0 dv) rest,
        getEntry?_setEntry_self]
      simp [getEntry?]
    · by_cases hk0 : hasKey d k0 = true
      · rw [patch, if_pos hk0, ih h]
        simp [getEntry?, hk]
      · rw [patch, if_neg hk0,
          ih (by rw [hasKey_setEntry_other (Ne.symm hk) d dv]; exact h)]
        simp [getEntry?, hk]

theorem serializableEntries_patch {d : Entries} {pending : List (String × PyValue)}
    (hd : serializableEntries d = true) (hp : serializableEntries pending = true) :
    serializableEntries (patch d pending) = true := by
  induction pending generalizing d with
  | nil => rw [patch]; exact hd
  | cons q rest ih =>
    rcases q with ⟨k0, dv⟩
    rw [serializableEntries, Bool.and_eq_true] at hp
    by_cases hk0 : hasKey d k0 = true
    · rw [patch, if_pos hk0]; exact ih hd hp.2
    · rw [patch, if_neg hk0]
      exact ih (serializableEntries_setEntry hd hp.1 k0) hp.2

/-! ### Lemmas about the back-fill loop -/

theorem backfill_dict_shape {pending : List (String × PyValue)} {d : Entries}
    {fs fs' : FS} {s : PyValue}
    (h : backfill pending (.dict d) fs = (fs', .ok s)) :
    s = .dict (patch d pending) := by
  induction pending generalizing d fs with
  | nil =>
    rw [backfill] at h
    cases h
    rw [patch]
  | cons q rest ih =>
    rcases q with ⟨k, dv⟩
    cases hk : hasKey d k with
    | true =>
      simp only [backfill, pyContains, pySetItem, hk] at h
      rw [patch, if_pos hk]
      exact ih h
    | false =>
      simp only [backfill, pyContains, pySetItem, hk] at h
      rw [patch, if_neg (by simp [hk])]
      cases hs : serializable (.dict (setEntry d k dv)) with
      | true =>
        simp only [save_settings, hs, if_pos] at h
        exact ih h
      | false =>
        simp only [save_settings, hs, Bool.false_eq_true, if_neg] at h
        simp at h

theorem backfill_file_tracks {pending : List (String × PyValue)} {v : PyValue}
    {fs fs' : FS} {s : PyValue}
    (hfile : fs.file = .json v) (h : backfill pending v fs = (fs', .ok s)) :
    fs'.file = .json s := by
  induction pending generalizing v fs with
  | nil =>
    rw [backfill] at h
    cases h
    exact hfile
  | cons q rest ih =>
    rcases q with ⟨k, dv⟩
    rw [backfill] at h
    cases hc : pyContains v k with
    | error e => rw [hc] at h; simp at h
    | ok b =>
      rw [hc] at h
      cases b with
      | true => exact ih hfile h
      | false =>
        cases hsi : pySetItem v k dv with
        | error e => rw [hsi] at h; simp at h
        | ok updated =>
          rw [hsi] at h
          cases hs : serializable updated with
          | true =>
            simp only [save_settings, hs, if_pos] at h
            exact ih rfl h
          | false =>
            simp only [save_settings, hs, Bool.false_eq_true, if_neg] at h
            simp at h

theorem backfill_mono_contains {pending : List (String × PyValue)} {v : PyValue}
    {fs fs' : FS} {s : PyValue} {k : String}
    (h : backfill pending v fs = (fs', .ok s))
    (hc : pyContains v k = .ok true) : pyContains s k = .ok true := by
  induction pending generalizing v fs with
  | nil =>
    rw [backfill] at h
    cases h
    exact hc
  | cons q rest ih =>
    rcases q with ⟨k0, dv⟩
    rw [backfill] at h
    cases hc0 : pyContains v k0 with
    | error e => rw [hc0] at h; simp at h
    | ok b =>
      rw [hc0] at h
      cases b with
      | true => exact ih h hc
      | false =>
        cases v with
        | dict entries =>
          simp only [pySetItem] at h
          cases hs : serializable (PyValue.dict (setEntry entries k0 dv)) with
          | true =>
            simp only [save_settings, hs, if_pos] at h
            refine ih h ?_
            simp only [pyContains] at hc ⊢
            rcases Except.ok.inj hc with hc
            rw [hasKey_setEntry_mono hc k0 dv]
          | false =>
            simp only [save_settings, hs, Bool.false_eq_true, if_neg] at h
            simp at h
        | null => simp only [pySetItem] at h; simp at h
        | bool b => simp only [pySetItem] at h; simp at h
        | int n => simp only [pySetItem] at h; simp at h
        | str s => simp only [pySetItem] at h; simp at h
        | list items => simp only [pySetItem] at h; simp at h
        | obj id => simp only [pySetItem] at h; simp at h

theorem backfill_idem {pending : List (String × PyValue)} {v : PyValue}
    {fs fs' : FS} {s : PyValue}
    (h : backfill pending v fs = (fs', .ok s)) :
    backfill pending s fs' = (fs', .ok s) := by
  induction pending generalizing v fs with
  | nil =>
    rw [backfill] at h
    cases h
    rw [backfill]
  | cons q rest ih =>
    rcases q with ⟨k0, dv⟩
    rw [backfill] at h
    cases hc0 : pyContains v k0 with
    | error e => rw [hc0] at h; simp at h
    | ok b =>
      rw [hc0] at h
      cases b with
      | true =>
        have hcs : pyContains s k0 = .ok true := backfill_mono_contains h hc0
        rw [backfill, hcs]
        exact ih h
      | false =>
        cases hsi : pySetItem v k0 dv with
        | error e => rw [hsi] at h; simp at h
        | ok updated =>
          rw [hsi] at h
          cases hs : serializable updated with
          | true =>
            simp only [save_settings, hs, if_pos] at h
            have hcu : pyContains updated k0 = .ok true := by
              cases v with
              | dict entries =>
                simp only [pySetItem] at hsi
                rcases Except.ok.inj hsi with hsi
                subst hsi
                simp only [pyContains, hasKey_setEntry_self]
              | null => simp [pySetItem] at hsi
              | bool b => simp [pySetItem] at hsi
              | int n => simp [pySetItem] at hsi
              | str s => simp [pySetItem] at hsi
              | list items => simp [pySetItem] at hsi
              | obj id => simp [pySetItem] at hsi
            have hcs : pyContains s k0 = .ok true := backfill_mono_contains h hcu
            rw [backfill, hcs]
            exact ih h
          | false =>
            simp only [save_settings, hs, Bool.false_eq_true, if_neg] at h
            simp at h

theorem backfill_noop {pending : List (String × PyValue)} {v : PyValue} {fs : FS}
    (h : ∀ p ∈ pending, pyContains v p.1 = .ok true) :
    backfill pending v fs = (fs, .ok v) := by
  induction pending with
  | nil => rw [backfill]
  | cons q rest ih =>
    rw [backfill, h q (List.mem_cons_self q rest)]
    exact ih fun p hp => h p (List.mem_cons_of_mem q hp)

theorem backfill_ser_ok {pending : List (String × PyValue)} {d : Entries} {fs : FS}
    (hd : serializableEntries d = true) (hp : serializableEntries pending = true) :
    (backfill pending (.dict d) fs).2 = .ok (.dict (patch d pending)) := by
  induction pending generalizing d fs with
  | nil => rw [backfill, patch]
  | cons q rest ih =>
    rcases q with ⟨k0, dv⟩
    rw [serializableEntries, Bool.and_eq_true] at hp
    cases hk : hasKey d k0 with
    | true =>
      simp only [backfill, pyContains, hk]
      rw [patch, if_pos hk]
      exact ih hd hp.2
    | false =>
      simp only [backfill, pyContains, pySetItem, hk]
      have hs : serializable (PyValue.dict (setEntry d k0 dv)) = true :=
        serializableEntries_setEntry hd hp.1 k0
      simp only [save_settings, hs, if_pos]
      rw [patch, if_neg (by simp [hk])]
      exact ih (serializableEntries_setEntry hd hp.1 k0) hp.2

/-! ### Lemmas about load-or-initialize -/

/-- The settings file is absent, unparseable, or parses to a JSON object. -/
def wfFileB : FileState → Bool
  | .absent => true
  | .invalid => true
  | .json (.dict _) => true
  | .json _ => false

/-- As `wfFileB`, and the parsed object holds only JSON-representable
values (every file produced by actually parsing JSON text satisfies this). -/
def wfFileSerB : FileState → Bool
  | .absent => true
  | .invalid => true
  | .json (.dict e) => serializableEntries e
  | .json _ => false

theorem backfill_dict_err {pending : List (String × PyValue)} {d : Entries}
    {fs fs' : FS} {e : PyErr}
    (h : backfill pending (.dict d) fs = (fs', .error e)) : fs'.file = .invalid := by
  induction pending generalizing d fs with
  | nil => rw [backfill] at h; simp at h
  | cons q rest ih =>
    rcases q with ⟨k, dv⟩
    cases hk : hasKey d k with
    | true =>
      simp only [backfill, pyContains, hk] at h
      exact ih h
    | false =>
      simp only [backfill, pyContains, pySetItem, hk] at h
      cases hs : serializable (.dict (setEntry d k dv)) with
      | true =>
        simp only [save_settings, hs, if_pos] at h
        exact ih h
      | false =>
        simp only [save_settings, hs, Bool.false_eq_true, if_neg] at h
        cases h
        rfl

theorem load_idem {defaults : Entries} {fs fs' : FS} {s : PyValue}
    (h : load_settings defaults fs = (fs', .ok s)) :
    load_settings defaults fs' = (fs', .ok s) := by
  cases hf : fs.file with
  | absent =>
    rw [load_settings, hf] at h
    cases hs : serializable (.dict defaults) with
    | true =>
      simp only [save_settings, hs, if_pos] at h
      cases h
      rw [load_settings]
      exact backfill_noop fun p hp => by
        simp only [pyContains, hasKey_of_mem hp]
    | false =>
      simp only [save_settings, hs, Bool.false_eq_true, if_neg] at h
      simp at h
  | invalid =>
    rw [load_settings, hf] at h
    cases hs : serializable (.dict defaults) with
    | true =>
      simp only [save_settings, hs, if_pos] at h
      cases h
      rw [load_settings]
      exact backfill_noop fun p hp => by
        simp only [pyContains, hasKey_of_mem hp]
    | false =>
      simp only [save_settings, hs, Bool.false_eq_true, if_neg] at h
      simp at h
  | json v =>
    rw [load_settings, hf] at h
    rw [load_settings, backfill_file_tracks hf h]
    exact backfill_idem h

theorem load_ser_ok {defaults : Entries} {fs : FS}
    (hd : serializableEntries defaults = true) (hw : wfFileSerB fs.file = true) :
    ∃ d, (load_settings defaults fs).2 = .ok (.dict d) ∧
      serializableEntries d = true ∧
      (load_settings defaults fs).1.file = .json (.dict d) := by
  cases hf : fs.file with
  | absent =>
    refine ⟨defaults, ?_⟩
    simp [load_settings, hf, save_settings, serializable, hd]
  | invalid =>
    refine ⟨defaults, ?_⟩
    simp [load_settings, hf, save_settings, serializable, hd]
  | json v =>
    cases v with
    | dict e =>
      rw [hf] at hw
      simp only [wfFileSerB] at hw
      refine ⟨patch e defaults, ?_, serializableEntries_patch hw hd, ?_⟩
      · simp only [load_settings, hf]
        exact backfill_ser_ok hw hd
      · simp only [load_settings, hf]
        have h2 : (backfill defaults (PyValue.dict e) fs).2 =
            .ok (.dict (patch e defaults)) := backfill_ser_ok hw hd
        have hfull : backfill defaults (PyValue.dict e) fs =
            ((backfill defaults (PyValue.dict e) fs).1,
              .ok (.dict (patch e defaults))) := by
          rw [← h2]
        exact backfill_file_tracks hf hfull
    | null => rw [hf] at hw; simp [wfFileSerB] at hw
    | bool b => rw [hf] at hw; simp [wfFileSerB] at hw
    | int n => rw [hf] at hw; simp [wfFileSerB] at hw
    | str s => rw [hf] at hw; simp [wfFileSerB] at hw
    | list items => rw [hf] at hw; simp [wfFileSerB] at hw
    | obj id => rw [hf] at hw; simp [wfFileSerB] at hw

theorem load_keys_ok {defaults : Entries} {fs : FS}
    (hw : wfFileB fs.file = true) {fs' : FS} {s : PyValue}
    (h : load_settings defaults fs = (fs', .ok s)) :
    ∃ d, s = .dict d ∧ (∀ p ∈ defaults, hasKey d p.1 = true) ∧
      fs'.file = .json (.dict d) := by
  cases hf : fs.file with
  | absent =>
    rw [load_settings, hf] at h
    cases hs : serializable (.dict defaults) with
    | true =>
      simp only [save_settings, hs, if_pos] at h
      cases h
      exact ⟨defaults, rfl, fun p hp => hasKey_of_mem hp, rfl⟩
    | false =>
      simp only [save_settings, hs, Bool.false_eq_true, if_neg] at h
      simp at h
  | invalid =>
    rw [load_settings, hf] at h
    cases hs : serializable (.dict defaults) with
    | true =>
      simp only [save_settings, hs, if_pos] at h
      cases h
      exact ⟨defaults, rfl, fun p hp => hasKey_of_mem hp, rfl⟩
    | false =>
      simp only [save_settings, hs, Bool.false_eq_true, if_neg] at h
      simp at h
  | json v =>
    cases v with
    | dict e =>
      rw [load_settings, hf] at h
      refine ⟨patch e defaults, backfill_dict_shape h, ?_, ?_⟩
      · exact fun p hp => patch_hasKey_pending e defaults hp
      · rw [backfill_file_tracks hf h, backfill_dict_shape h]
    | null => rw [hf] at hw; simp [wfFileB] at hw
    | bool b => rw [hf] at hw; simp [wfFileB] at hw
    | int n => rw [hf] at hw; simp [wfFileB] at hw
    | str s => rw [hf] at hw; simp [wfFileB] at hw
    | list items => rw [hf] at hw; simp [wfFileB] at hw
    | obj id => rw [hf] at hw; simp [wfFileB] at hw

theorem load_err_file {defaults : Entries} {fs : FS}
    (hw : wfFileB fs.file = true) {fs' : FS} {e : PyErr}
    (h : load_settings defaults fs = (fs', .error e)) : fs'.file = .invalid := by
  cases hf : fs.file with
  | absent =>
    rw [load_settings, hf] at h
    cases hs : serializable (.dict defaults) with
    | true => simp only [save_settings, hs, if_pos] at h; simp at h
    | false =>
      simp only [save_settings, hs, Bool.false_eq_true, if_neg] at h
      cases h
      rfl
  | invalid =>
    rw [load_settings, hf] at h
    cases hs : serializable (.dict defaults) with
    | true => simp only [save_settings, hs, if_pos] at h; simp at h
    | false =>
      simp only [save_settings, hs, Bool.false_eq_true, if_neg] at h
      cases h
      rfl
  | json v =>
    cases v with
    | dict d =>
      rw [load_settings, hf] at h
      exact backfill_dict_err h
    | null => rw [hf] at hw; simp [wfFileB] at hw
    | bool b => rw [hf] at hw; simp [wfFileB] at hw
    | int n => rw [hf] at hw; simp [wfFileB] at hw
    | str s => rw [hf] at hw; simp [wfFileB] at hw
    | list items => rw [hf] at hw; simp [wfFileB] at hw
    | obj id => rw [hf] at hw; simp [wfFileB] at hw

/-! ### Invariants across traces of public operations -/

def exceptOk : Except PyErr PyValue → Bool
  | .ok _ => true
  | .error _ => false

/-- Operations of a well-behaved caller: only the three accessors, and
every value passed to update_setting is JSON-serializable. -/
def opOkB : Op → Bool
  | .get _ _ => true
  | .getAll => true
  | .update _ value => serializable value
  | .reset => false

/-- Construct a store, run the operations, and report whether construction
and every single operation completed without raising. -/
def traceOk (defaults : Entries) (hf : Bool) (fs : FS) (ops : List Op) : Bool :=
  match Settings.init defaults hf fs with
  | (fs', .ok st) => ((runOps st fs' ops).2.2).all exceptOk
  | (_, .error _) => false

/-- The in-memory settings value is a dict holding every default key. -/
def keysOk (defaults : Entries) (v : PyValue) : Bool :=
  match v with
  | .dict d => defaults.all fun p => hasKey d p.1
  | _ => false

/-- Invariant for serializable-world traces: the store remembers the given
defaults, defaults and in-memory dict are serializable, and the file holds
a serializable JSON object. -/
def SerInv (defaults : Entries) (st : Store) (fs : FS) : Prop :=
  st.default_settings = defaults ∧
  serializableEntries defaults = true ∧
  (∃ d, st._settings = .dict d ∧ serializableEntries d = true) ∧
  (∃ e, fs.file = .json (.dict e) ∧ serializableEntries e = true)

/-- Invariant for Claim C4: the store remembers the given defaults, the
in-memory dict holds every default key, and the file is either invalid
(after a failed save) or a JSON object holding every default key. -/
def KeysInv (defaults : Entries) (st : Store) (fs : FS) : Prop :=
  st.default_settings = defaults ∧
  (∃ d, st._settings = .dict d ∧ ∀ p ∈ defaults, hasKey d p.1 = true) ∧
  (fs.file = .invalid ∨ ∃ e, fs.file = .json (.dict e) ∧ ∀ p ∈ defaults, hasKey e p.1 = true)

theorem keysOk_of_parts {defaults : Entries} {v : PyValue}
    (h : ∃ d, v = .dict d ∧ ∀ p ∈ defaults, hasKey d p.1 = true) :
    keysOk defaults v = true := by
  rcases h with ⟨d, rfl, hk⟩
  simp only [keysOk, List.all_eq_true]
  exact fun p hp => hk p hp

theorem reload_ser {defaults : Entries} {st : Store} {fs : FS}
    (hI : SerInv defaults st fs) :
    (reload_settings st fs).2.2 = none ∧
    SerInv defaults (reload_settings st fs).2.1 (reload_settings st fs).1 := by
  rcases hI with ⟨hdef, hser, hst, e, hfile, hsere⟩
  cases hhf : st.hard_fetch with
  | false =>
    rw [reload_settings, hhf]
    exact ⟨rfl, hdef, hser, hst, e, hfile, hsere⟩
  | true =>
    have hw : wfFileSerB fs.file = true := by
      rw [hfile]; simpa [wfFileSerB] using hsere
    have hd : serializableEntries st.default_settings = true := by rw [hdef]; exact hser
    obtain ⟨d, h2, hserd, hfd⟩ := load_ser_ok hd hw
    rcases hload : load_settings st.default_settings fs with ⟨fs1, r⟩
    rw [hload] at h2 hfd
    cases r with
    | error e0 => simp at h2
    | ok s =>
      rcases Except.ok.inj h2 with rfl
      rw [reload_settings, hhf, hload]
      exact ⟨rfl, hdef, hser, ⟨d, rfl, hserd⟩, d, hfd, hserd⟩

theorem reload_keys {defaults : Entries} {st : Store} {fs : FS}
    (hI : KeysInv defaults st fs) :
    KeysInv defaults (reload_settings st fs).2.1 (reload_settings st fs).1 := by
  rcases hI with ⟨hdef, hst, hfile⟩
  subst hdef
  cases hhf : st.hard_fetch with
  | false =>
    rw [reload_settings, hhf]
    exact ⟨rfl, hst, hfile⟩
  | true =>
    have hw : wfFileB fs.file = true := by
      rcases hfile with h | ⟨e, h, _⟩ <;> rw [h] <;> rfl
    rcases hload : load_settings st.default_settings fs with ⟨fs1, r⟩
    cases r with
    | error e0 =>
      rw [reload_settings, hhf, hload]
      exact ⟨rfl, hst, Or.inl (load_err_file hw hload)⟩
    | ok s =>
      obtain ⟨d, rfl, hk, hfd⟩ := load_keys_ok hw hload
      rw [reload_settings, hhf, hload]
      exact ⟨rfl, ⟨d, rfl, hk⟩, Or.inr ⟨d, hfd, hk⟩⟩

theorem runOp_ser {defaults : Entries} {st : Store} {fs : FS} {op : Op}
    (hI : SerInv defaults st fs) (hop : opOkB op = true) :
    exceptOk (runOp st fs op).2.2 = true ∧
    SerInv defaults (runOp st fs op).2.1 (runOp st fs op).1 := by
  obtain ⟨hnone, hI'⟩ := reload_ser hI
  rcases hr : reload_settings st fs with ⟨fs1, st1, me⟩
  rw [hr] at hnone hI'
  simp only at hnone hI'
  subst hnone
  cases op with
  | get key dflt =>
    simp only [runOp, get_setting, hr]
    rcases hI' with ⟨hdef, hser, ⟨d, hd, hserd⟩, hfile⟩
    rw [hd]
    exact ⟨by simp [pyDictGet, exceptOk], hdef, hser, ⟨d, hd, hserd⟩, hfile⟩
  | getAll =>
    simp only [runOp, get_all_settings, hr]
    exact ⟨by simp [exceptOk], hI'⟩
  | update key value =>
    simp only [opOkB] at hop
    rcases hI' with ⟨hdef, hser, ⟨d, hd, hserd⟩, hfile⟩
    have hsu : serializable (PyValue.dict (setEntry d key value)) = true :=
      serializableEntries_setEntry hserd hop key
    simp only [runOp, update_setting, hr, hd, pySetItem, save_settings, hsu, if_pos]
    refine ⟨by simp [exceptOk], hdef, hser, ⟨setEntry d key value, rfl, hsu⟩,
      ⟨setEntry d key value, rfl, hsu⟩⟩
  | reset => simp [opOkB] at hop

theorem runOp_keys {defaults : Entries} {st : Store} {fs : FS} (op : Op)
    (hI : KeysInv defaults st fs) :
    KeysInv defaults (runOp st fs op).2.1 (runOp st fs op).1 := by
  have hI1 := reload_keys hI
  rcases hr : reload_settings st fs with ⟨fs1, st1, me⟩
  rw [hr] at hI1
  simp only at hI1
  cases op with
  | get key dflt =>
    cases me with
    | none => simpa only [runOp, get_setting, hr] using hI1
    | some e => simpa only [runOp, get_setting, hr] using hI1
  | getAll =>
    cases me with
    | none => simpa only [runOp, get_all_settings, hr] using hI1
    | some e => simpa only [runOp, get_all_settings, hr] using hI1
  | update key value =>
    cases me with
    | some e => simpa only [runOp, update_setting, hr] using hI1
    | none =>
      rcases hI1 with ⟨hdef, ⟨d, hd, hk⟩, hfile⟩
      cases hs : serializable (PyValue.dict (setEntry d key value)) with
      | true =>
        simp only [runOp, update_setting, hr, hd, pySetItem, save_settings, hs, if_pos]
        refine ⟨hdef, ⟨setEntry d key value, rfl, fun p hp => hasKey_setEntry_mono (hk p hp) key value⟩,
          Or.inr ⟨setEntry d key value, rfl, fun p hp => hasKey_setEntry_mono (hk p hp) key value⟩⟩
      | false =>
        simp only [runOp, update_setting, hr, hd, pySetItem, save_settings, hs,
          Bool.false_eq_true, if_neg]
        exact ⟨hdef, ⟨setEntry d key value, rfl, fun p hp => hasKey_setEntry_mono (hk p hp) key value⟩,
          Or.inl rfl⟩
  | reset =>
    rcases hI with ⟨hdef, hst, hfile⟩
    subst hdef
    cases hs : serializable (PyValue.dict st.default_settings) with
    | true =>
      simp only [runOp, reset, save_settings, hs, if_pos]
      exact ⟨rfl, ⟨st.default_settings, rfl, fun p hp => hasKey_of_mem hp⟩,
        Or.inr ⟨st.default_settings, rfl, fun p hp => hasKey_of_mem hp⟩⟩
    | false =>
      simp only [runOp, reset, save_settings, hs, Bool.false_eq_true, if_neg]
      exact ⟨rfl, ⟨st.default_settings, rfl, fun p hp => hasKey_of_mem hp⟩, Or.inl rfl⟩

theorem runOps_keys {defaults : Entries} {ops : List Op} {st : Store} {fs : FS}
    (hI : KeysInv defaults st fs) :
    KeysInv defaults (runOps st fs ops).2.1 (runOps st fs ops).1 := by
  induction ops generalizing st fs with
  | nil => simpa only [runOps] using hI
  | cons op rest ih =>
    simp only [runOps]
    exact ih (runOp_keys op hI)

theorem runOps_ser_all {defaults : Entries} {ops : List Op} {st : Store} {fs : FS}
    (hI : SerInv defaults st fs) (hops : ops.all opOkB = true) :
    ((runOps st fs ops).2.2).all exceptOk = true := by
  induction ops generalizing st fs with
  | nil => simp [runOps]
  | cons op rest ih =>
    rw [List.all_cons, Bool.and_eq_true] at hops
    obtain ⟨h1, hI'⟩ := runOp_ser hI hops.1
    simp only [runOps, List.all_cons, Bool.and_eq_true]
    exact ⟨h1, ih hI' hops.2⟩

theorem init_ser {defaults : Entries} {hf : Bool} {fs : FS}
    (hd : serializableEntries defaults = true) (hw : wfFileSerB fs.file = true) :
    ∃ st fs', Settings.init defaults hf fs = (fs', .ok st) ∧ SerInv defaults st fs' := by
  obtain ⟨d, h2, hserd, hfd⟩ := load_ser_ok hd hw
  rcases hload : load_settings defaults fs with ⟨fs1, r⟩
  rw [hload] at h2 hfd
  cases r with
  | error e0 => simp at h2
  | ok s =>
    simp only at h2 hfd
    rcases Except.ok.inj h2 with rfl
    refine ⟨⟨defaults, hf, .dict d⟩, fs1, ?_, rfl, hd, ⟨d, rfl, hserd⟩, ⟨d, hfd, hserd⟩⟩
    rw [Settings.init, hload]

theorem init_keys {defaults : Entries} {hf : Bool} {fs fs' : FS} {st : Store}
    (hw : wfFileB fs.file = true)
    (h : Settings.init defaults hf fs = (fs', .ok st)) :
    KeysInv defaults st fs' := by
  rcases hload : load_settings defaults fs with ⟨fs1, r⟩
  rw [Settings.init, hload] at h
  cases r with
  | error e0 => simp at h
  | ok s =>
    simp only at h
    cases h
    obtain ⟨d, rfl, hk, hfd⟩ := load_keys_ok hw hload
    exact ⟨rfl, ⟨d, rfl, hk⟩, Or.inr ⟨d, hfd, hk⟩⟩

/-! ### Claim C1 -/

/-- Claim C1, counterexample: with empty defaults and the settings file
holding the valid JSON text `123` (valid JSON, but not a JSON object),
construction succeeds, and then a caller who only calls `get_setting`
observes an `AttributeError` (`int` has no attribute `get`).  No environment
failure occurred and no non-serializable value was passed anywhere, so the
claim that such a caller sees no exception caused by a file whose contents
are not a valid JSON object is false on the code. -/
theorem settings_c1_counterexample :
    serializableEntries [] = true ∧
    ([Op.get "a" PyValue.null].all opOkB) = true ∧
    (Settings.init [] false ⟨.json (.int 123), []⟩).2 =
      .ok ⟨[], false, .int 123⟩ ∧
    traceOk [] false ⟨.json (.int 123), []⟩ [Op.get "a" PyValue.null] = false ∧
    (runOps ⟨[], false, .int 123⟩ ⟨.json (.int 123), []⟩
        [Op.get "a" PyValue.null]).2.2 =
      [.error .attributeError] :=
  ⟨rfl, rfl, rfl, rfl, rfl⟩

/-- Claim C1 (amended): a caller who constructs a store and then only invokes
`get_setting`, `get_all_settings` and `update_setting` observes no exception,
provided the defaults and every updated value are JSON-serializable and the
settings file is absent, unparseable, or a valid JSON *object* — a file whose
contents are valid JSON but not an object (for example `123`) is excluded,
since it provokes an uncaught `TypeError`/`AttributeError`. -/
theorem settings_c1_no_exceptions (defaults : Entries) (hf : Bool) (fs0 : FS)
    (ops : List Op)
    (hd : serializableEntries defaults = true)
    (hwf : wfFileSerB fs0.file = true)
    (hops : ops.all opOkB = true) :
    traceOk defaults hf fs0 ops = true := by
  obtain ⟨st, fs1, hinit, hI⟩ := @init_ser defaults hf fs0 hd hwf
  simp only [traceOk, hinit]
  exact runOps_ser_all hI hops

/-- Witness for C1 at a concrete input: serializable defaults, an initially
corrupt file, an eager store, and a get/update/get-all trace. -/
theorem settings_c1_witness :
    serializableEntries [("a", PyValue.int 1)] = true ∧
    wfFileSerB (FS.mk .invalid []).file = true ∧
    ([Op.get "a" PyValue.null, Op.update "b" (PyValue.str "x"), Op.getAll].all opOkB) = true ∧
    traceOk [("a", PyValue.int 1)] true ⟨.invalid, []⟩
      [Op.get "a" PyValue.null, Op.update "b" (PyValue.str "x"), Op.getAll] = true :=
  ⟨rfl, rfl, rfl,
    settings_c1_no_exceptions [("a", PyValue.int 1)] true ⟨.invalid, []⟩
      [Op.get "a" PyValue.null, Op.update "b" (PyValue.str "x"), Op.getAll]
      rfl rfl rfl⟩

/-! ### Claim C4 -/

/-- Claim C4: after a successful construction over a well-formed file
(absent, unparseable, or a JSON object), the in-memory mapping is a dict
holding every key of the defaults, and it still is after every sequence of
`get_setting`, `get_all_settings`, `update_setting` and `reset` calls —
including ones whose saves fail on non-serializable values. -/
theorem settings_c4_defaults_keys_invariant (defaults : Entries) (hf : Bool)
    (fs0 fs1 : FS) (st0 : Store) (ops : List Op)
    (hwf : wfFileB fs0.file = true)
    (hinit : Settings.init defaults hf fs0 = (fs1, .ok st0)) :
    keysOk defaults st0._settings = true ∧
    keysOk defaults (runOps st0 fs1 ops).2.1._settings = true := by
  have hI := init_keys hwf hinit
  have hIe : KeysInv defaults (runOps st0 fs1 ops).2.1 (runOps st0 fs1 ops).1 :=
    runOps_keys hI
  exact ⟨keysOk_of_parts hI.2.1, keysOk_of_parts hIe.2.1⟩

/-- Witness for C4 at a concrete input: an eager store built on an absent
file, then an update whose save fails, a reset, and a get. -/
theorem settings_c4_witness :
    wfFileB (FS.mk .absent []).file = true ∧
    Settings.init [("a", PyValue.int 1)] true ⟨.absent, []⟩ =
      (⟨.json (.dict [("a", PyValue.int 1)]), [.dict [("a", PyValue.int 1)]]⟩,
        .ok ⟨[("a", PyValue.int 1)], true, .dict [("a", PyValue.int 1)]⟩) ∧
    keysOk [("a", PyValue.int 1)]
      (Store.mk [("a", PyValue.int 1)] true (.dict [("a", PyValue.int 1)]))._settings = true ∧
    keysOk [("a", PyValue.int 1)]
      (runOps ⟨[("a", PyValue.int 1)], true, .dict [("a", PyValue.int 1)]⟩
        ⟨.json (.dict [("a", PyValue.int 1)]), [.dict [("a", PyValue.int 1)]]⟩
        [Op.update "b" (PyValue.obj 0), Op.reset, Op.get "a" PyValue.null]).2.1._settings =
      true :=
  ⟨rfl, rfl,
    settings_c4_defaults_keys_invariant [("a", PyValue.int 1)] true
      ⟨.absent, []⟩
      ⟨.json (.dict [("a", PyValue.int 1)]), [.dict [("a", PyValue.int 1)]]⟩
      ⟨[("a", PyValue.int 1)], true, .dict [("a", PyValue.int 1)]⟩
      [Op.update "b" (PyValue.obj 0), Op.reset, Op.get "a" PyValue.null]
      rfl rfl⟩

/-! ### Claim C2 -/

/-- Claim C2: constructing a store over a file holding a valid JSON object
loads that object, inserts the default value for every default key absent
from it, persists the patched mapping back to disk, and preserves every key
already on disk (keys absent from defaults included): the loaded mapping is
`patch d defaults`, the file ends up holding exactly it, keys of `d` keep
their on-disk values, and keys missing from `d` get their defaults. -/
theorem settings_c2_backfill (defaults d : Entries) (hf : Bool)
    (fs0 fs1 : FS) (st0 : Store) (k : String)
    (hfile : fs0.file = .json (.dict d))
    (hinit : Settings.init defaults hf fs0 = (fs1, .ok st0)) :
    st0._settings = .dict (patch d defaults) ∧
    fs1.file = .json (.dict (patch d defaults)) ∧
    (hasKey d k = true → getEntry? (patch d defaults) k = getEntry? d k) ∧
    (hasKey d k = false → getEntry? (patch d defaults) k = getEntry? defaults k) := by
  rcases hload : load_settings defaults fs0 with ⟨fs1', r⟩
  rw [Settings.init, hload] at hinit
  cases r with
  | error e0 => simp at hinit
  | ok s =>
    simp only at hinit
    cases hinit
    rw [load_settings, hfile] at hload
    have hshape := backfill_dict_shape hload
    refine ⟨hshape, ?_, fun hk => patch_getEntry_present hk defaults,
      fun hk => patch_getEntry_missing hk defaults⟩
    rw [backfill_file_tracks hfile hload, hshape]

/-- Witness for C2 at the claim's concrete input: defaults `{a:1, b:2}`,
on-disk object `{a:99}`; construction yields `{a:99, b:2}` in memory and on
disk, and key `b` holds its default value 2. -/
theorem settings_c2_witness :
    (FS.mk (.json (.dict [("a", PyValue.int 99)])) []).file =
      .json (.dict [("a", PyValue.int 99)]) ∧
    Settings.init [("a", PyValue.int 1), ("b", PyValue.int 2)] false
        ⟨.json (.dict [("a", PyValue.int 99)]), []⟩ =
      (⟨.json (.dict [("a", PyValue.int 99), ("b", PyValue.int 2)]),
          [.dict [("a", PyValue.int 99), ("b", PyValue.int 2)]]⟩,
        .ok ⟨[("a", PyValue.int 1), ("b", PyValue.int 2)], false,
          .dict [("a", PyValue.int 99), ("b", PyValue.int 2)]⟩) ∧
    (Store.mk [("a", PyValue.int 1), ("b", PyValue.int 2)] false
        (.dict [("a", PyValue.int 99), ("b", PyValue.int 2)]))._settings =
      .dict (patch [("a", PyValue.int 99)] [("a", PyValue.int 1), ("b", PyValue.int 2)]) ∧
    getEntry? (patch [("a", PyValue.int 99)] [("a", PyValue.int 1), ("b", PyValue.int 2)]) "a" =
      getEntry? [("a", PyValue.int 99)] "a" ∧
    getEntry? (patch [("a", PyValue.int 99)] [("a", PyValue.int 1), ("b", PyValue.int 2)]) "b" =
      some (PyValue.int 2) :=
  ⟨rfl, rfl,
    (settings_c2_backfill [("a", PyValue.int 1), ("b", PyValue.int 2)]
      [("a", PyValue.int 99)] false
      ⟨.json (.dict [("a", PyValue.int 99)]), []⟩
      ⟨.json (.dict [("a", PyValue.int 99), ("b", PyValue.int 2)]),
        [.dict [("a", PyValue.int 99), ("b", PyValue.int 2)]]⟩
      ⟨[("a", PyValue.int 1), ("b", PyValue.int 2)], false,
        .dict [("a", PyValue.int 99), ("b", PyValue.int 2)]⟩
      "a" rfl rfl).1,
    (settings_c2_backfill [("a", PyValue.int 1), ("b", PyValue.int 2)]
      [("a", PyValue.int 99)] false
      ⟨.json (.dict [("a", PyValue.int 99)]), []⟩
      ⟨.json (.dict [("a", PyValue.int 99), ("b", PyValue.int 2)]),
        [.dict [("a", PyValue.int 99), ("b", PyValue.int 2)]]⟩
      ⟨[("a", PyValue.int 1), ("b", PyValue.int 2)], false,
        .dict [("a", PyValue.int 99), ("b", PyValue.int 2)]⟩
      "a" rfl rfl).2.2.1 rfl,
    (settings_c2_backfill [("a", PyValue.int 1), ("b", PyValue.int 2)]
      [("a", PyValue.int 99)] false
      ⟨.json (.dict [("a", PyValue.int 99)]), []⟩
      ⟨.json (.dict [("a", PyValue.int 99), ("b", PyValue.int 2)]),
        [.dict [("a", PyValue.int 99), ("b", PyValue.int 2)]]⟩
      ⟨[("a", PyValue.int 1), ("b", PyValue.int 2)], false,
        .dict [("a", PyValue.int 99), ("b", PyValue.int 2)]⟩
      "b" rfl rfl).2.2.2 rfl⟩

/-! ### Claim C3 -/

/-- Claim C3: if the settings file exists but its contents fail to parse as
JSON, construction raises no exception, sets the in-memory mapping to a copy
of the (serializable, per the spec's data model) defaults, overwrites the
file with the serialized defaults, and behaves exactly as if the file had
not existed — both for load-or-initialize itself (hence for every
EAGER-policy reload) and for whole construction. -/
theorem settings_c3_corrupt_self_heal (defaults : Entries) (hf : Bool)
    (w : List PyValue)
    (hser : serializableEntries defaults = true) :
    Settings.init defaults hf ⟨.invalid, w⟩ =
      (⟨.json (.dict defaults), w ++ [.dict defaults]⟩,
        .ok ⟨defaults, hf, .dict defaults⟩) ∧
    load_settings defaults ⟨.invalid, w⟩ =
      (⟨.json (.dict defaults), w ++ [.dict defaults]⟩, .ok (.dict defaults)) ∧
    load_settings defaults ⟨.invalid, w⟩ = load_settings defaults ⟨.absent, w⟩ ∧
    Settings.init defaults hf ⟨.invalid, w⟩ = Settings.init defaults hf ⟨.absent, w⟩ := by
  have h1 : load_settings defaults ⟨.invalid, w⟩ =
      (⟨.json (.dict defaults), w ++ [.dict defaults]⟩, .ok (.dict defaults)) := by
    simp [load_settings, save_settings, serializable, hser]
  have h2 : load_settings defaults ⟨.absent, w⟩ =
      (⟨.json (.dict defaults), w ++ [.dict defaults]⟩, .ok (.dict defaults)) := by
    simp [load_settings, save_settings, serializable, hser]
  refine ⟨?_, h1, h1.trans h2.symm, ?_⟩
  · rw [Settings.init, h1]
  · rw [Settings.init, h1, Settings.init, h2]

/-- Witness for C3 at a concrete input: defaults `{a:1}` and a corrupt
file. -/
theorem settings_c3_witness :
    serializableEntries [("a", PyValue.int 1)] = true ∧
    Settings.init [("a", PyValue.int 1)] false ⟨.invalid, []⟩ =
      (⟨.json (.dict [("a", PyValue.int 1)]), [.dict [("a", PyValue.int 1)]]⟩,
        .ok ⟨[("a", PyValue.int 1)], false, .dict [("a", PyValue.int 1)]⟩) ∧
    Settings.init [("a", PyValue.int 1)] false ⟨.invalid, []⟩ =
      Settings.init [("a", PyValue.int 1)] false ⟨.absent, []⟩ :=
  ⟨rfl,
    (settings_c3_corrupt_self_heal [("a", PyValue.int 1)] false [] rfl).1,
    (settings_c3_corrupt_self_heal [("a", PyValue.int 1)] false [] rfl).2.2.2⟩

/-! ### Claim C5 -/

/-- Claim C5: loading preserves keys present on disk but absent from
defaults (keys of the on-disk object keep their on-disk values in
`patch d defaults`), whereas `reset` unconditionally replaces the in-memory
mapping with a fresh copy of the (serializable) defaults and persists it, so
keys absent from the defaults are afterwards gone both in memory and on
disk. -/
theorem settings_c5_reset_discards (defaults d : Entries) (hf : Bool)
    (fs0 fs1 : FS) (st0 : Store) (k : String)
    (hfile : fs0.file = .json (.dict d))
    (hinit : Settings.init defaults hf fs0 = (fs1, .ok st0))
    (hser : serializableEntries defaults = true) :
    st0._settings = .dict (patch d defaults) ∧
    (hasKey d k = true → getEntry? (patch d defaults) k = getEntry? d k) ∧
    reset st0 fs1 =
      (⟨.json (.dict defaults), fs1.writes ++ [.dict defaults]⟩,
        { st0 with _settings := .dict defaults }, .ok .null) ∧
    (hasKey defaults k = false → getEntry? defaults k = none) := by
  rcases hload : load_settings defaults fs0 with ⟨fs1', r⟩
  rw [Settings.init, hload] at hinit
  cases r with
  | error e0 => simp at hinit
  | ok s =>
    simp only at hinit
    cases hinit
    rw [load_settings, hfile] at hload
    refine ⟨backfill_dict_shape hload, fun hk => patch_getEntry_present hk defaults,
      ?_, fun hk => getEntry?_eq_none_of_not_hasKey hk⟩
    simp [reset, save_settings, serializable, hser]

/-- Witness for C5 at the claim's concrete input: defaults `{a:1}`, on-disk
`{a:1, extra:"x"}`; loading preserves `extra` (value `"x"`), a subsequent
`reset` leaves `{a:1}` in memory and on disk, and `extra` resolves to
nothing in the defaults. -/
theorem settings_c5_witness :
    serializableEntries [("a", PyValue.int 1)] = true ∧
    Settings.init [("a", PyValue.int 1)] false
        ⟨.json (.dict [("a", PyValue.int 1), ("extra", PyValue.str "x")]), []⟩ =
      (⟨.json (.dict [("a", PyValue.int 1), ("extra", PyValue.str "x")]), []⟩,
        .ok ⟨[("a", PyValue.int 1)], false,
          .dict [("a", PyValue.int 1), ("extra", PyValue.str "x")]⟩) ∧
    getEntry? (patch [("a", PyValue.int 1), ("extra", PyValue.str "x")]
        [("a", PyValue.int 1)]) "extra" = some (PyValue.str "x") ∧
    reset ⟨[("a", PyValue.int 1)], false,
        .dict [("a", PyValue.int 1), ("extra", PyValue.str "x")]⟩
      ⟨.json (.dict [("a", PyValue.int 1), ("extra", PyValue.str "x")]), []⟩ =
      (⟨.json (.dict [("a", PyValue.int 1)]), [.dict [("a", PyValue.int 1)]]⟩,
        ⟨[("a", PyValue.int 1)], false, .dict [("a", PyValue.int 1)]⟩, .ok .null) ∧
    getEntry? [("a", PyValue.int 1)] "extra" = none :=
  ⟨rfl, rfl,
    (settings_c5_reset_discards [("a", PyValue.int 1)]
      [("a", PyValue.int 1), ("extra", PyValue.str "x")] false
      ⟨.json (.dict [("a", PyValue.int 1), ("extra", PyValue.str "x")]), []⟩
      ⟨.json (.dict [("a", PyValue.int 1), ("extra", PyValue.str "x")]), []⟩
      ⟨[("a", PyValue.int 1)], false,
        .dict [("a", PyValue.int 1), ("extra", PyValue.str "x")]⟩
      "extra" rfl rfl rfl).2.1 rfl,
    (settings_c5_reset_discards [("a", PyValue.int 1)]
      [("a", PyValue.int 1), ("extra", PyValue.str "x")] false
      ⟨.json (.dict [("a", PyValue.int 1), ("extra", PyValue.str "x")]), []⟩
      ⟨.json (.dict [("a", PyValue.int 1), ("extra", PyValue.str "x")]), []⟩
      ⟨[("a", PyValue.int 1)], false,
        .dict [("a", PyValue.int 1), ("extra", PyValue.str "x")]⟩
      "extra" rfl rfl rfl).2.2.1,
    (settings_c5_reset_discards [("a", PyValue.int 1)]
      [("a", PyValue.int 1), ("extra", PyValue.str "x")] false
      ⟨.json (.dict [("a", PyValue.int 1), ("extra", PyValue.str "x")]), []⟩
      ⟨.json (.dict [("a", PyValue.int 1), ("extra", PyValue.str "x")]), []⟩
      ⟨[("a", PyValue.int 1)], false,
        .dict [("a", PyValue.int 1), ("extra", PyValue.str "x")]⟩
      "extra" rfl rfl rfl).2.2.2 rfl⟩

/-! ### Claim C6 -/

/-- Claim C6: load-or-initialize is idempotent.  If a LAZY-policy
construction succeeds, constructing a second LAZY store with the same
defaults against the resulting file returns the very same store and the very
same filesystem — file content unchanged *and* the write log unchanged, so
no write system call happens at all during the second construction — and
`get_all_settings` of both stores return the same mapping. -/
theorem settings_c6_idempotent_load (defaults : Entries) (fs0 fs1 : FS)
    (st1 : Store)
    (hinit : Settings.init defaults false fs0 = (fs1, .ok st1)) :
    Settings.init defaults false fs1 = (fs1, .ok st1) ∧
    (get_all_settings st1 fs1).2.2 = .ok st1._settings := by
  rcases hload : load_settings defaults fs0 with ⟨fs1', r⟩
  rw [Settings.init, hload] at hinit
  cases r with
  | error e0 => simp at hinit
  | ok s =>
    simp only at hinit
    cases hinit
    constructor
    · rw [Settings.init, load_idem hload]
    · simp [get_all_settings, reload_settings]

/-- Witness for C6 at a concrete input: defaults `{a:1}` over an absent
file; the first construction creates the file, the second changes
nothing. -/
theorem settings_c6_witness :
    Settings.init [("a", PyValue.int 1)] false ⟨.absent, []⟩ =
      (⟨.json (.dict [("a", PyValue.int 1)]), [.dict [("a", PyValue.int 1)]]⟩,
        .ok ⟨[("a", PyValue.int 1)], false, .dict [("a", PyValue.int 1)]⟩) ∧
    Settings.init [("a", PyValue.int 1)] false
        ⟨.json (.dict [("a", PyValue.int 1)]), [.dict [("a", PyValue.int 1)]]⟩ =
      (⟨.json (.dict [("a", PyValue.int 1)]), [.dict [("a", PyValue.int 1)]]⟩,
        .ok ⟨[("a", PyValue.int 1)], false, .dict [("a", PyValue.int 1)]⟩) ∧
    (get_all_settings ⟨[("a", PyValue.int 1)], false, .dict [("a", PyValue.int 1)]⟩
        ⟨.json (.dict [("a", PyValue.int 1)]), [.dict [("a", PyValue.int 1)]]⟩).2.2 =
      .ok (.dict [("a", PyValue.int 1)]) :=
  ⟨rfl,
    (settings_c6_idempotent_load [("a", PyValue.int 1)] ⟨.absent, []⟩
      ⟨.json (.dict [("a", PyValue.int 1)]), [.dict [("a", PyValue.int 1)]]⟩
      ⟨[("a", PyValue.int 1)], false, .dict [("a", PyValue.int 1)]⟩ rfl).1,
    (settings_c6_idempotent_load [("a", PyValue.int 1)] ⟨.absent, []⟩
      ⟨.json (.dict [("a", PyValue.int 1)]), [.dict [("a", PyValue.int 1)]]⟩
      ⟨[("a", PyValue.int 1)], false, .dict [("a", PyValue.int 1)]⟩ rfl).2⟩

/-! ### Claim C7 -/

/-- Whether the settings file currently holds parseable JSON. -/
def isValidJson : FileState → Bool
  | .json _ => true
  | _ => false

/-- Claim C7, counterexample: updating `{a:1}` (in memory and on disk) with
the non-serializable value `obj 0` under key `b` raises `TypeError` at save
time, but the settings file — which held valid JSON before the call — is
left holding invalid JSON: `_save_settings` opens the file in `'w'` mode
(truncating it) and `json.dump` streams part of the output before raising,
so the failure *does* leave partial/corrupt JSON on disk, contrary to the
claim. -/
theorem settings_c7_counterexample :
    serializable (PyValue.obj 0) = false ∧
    isValidJson (FS.mk (.json (.dict [("a", PyValue.int 1)])) []).file = true ∧
    update_setting ⟨[("a", PyValue.int 1)], false, .dict [("a", PyValue.int 1)]⟩
        ⟨.json (.dict [("a", PyValue.int 1)]), []⟩ "b" (PyValue.obj 0) =
      (⟨.invalid, [.dict [("a", PyValue.int 1), ("b", PyValue.obj 0)]]⟩,
        ⟨[("a", PyValue.int 1)], false,
          .dict [("a", PyValue.int 1), ("b", PyValue.obj 0)]⟩,
        .error .typeError) ∧
    isValidJson
      (update_setting ⟨[("a", PyValue.int 1)], false, .dict [("a", PyValue.int 1)]⟩
        ⟨.json (.dict [("a", PyValue.int 1)]), []⟩ "b" (PyValue.obj 0)).1.file = false :=
  ⟨rfl, rfl, rfl, rfl⟩

/-- Claim C7 (amended): `update_setting` with a non-serializable value fails
at save time with a `TypeError` from `json.dump`, and the key is not
silently dropped — it remains in the in-memory mapping with the given value
and the error is raised to the caller — but the settings file is left
truncated with partial, invalid JSON, because the file is opened in `'w'`
mode before `json.dump` streams into it and raises half-way. -/
theorem settings_c7_update_nonserializable (defaults d : Entries) (fs : FS)
    (key : String) (value : PyValue)
    (hval : serializable value = false) :
    update_setting ⟨defaults, false, .dict d⟩ fs key value =
      (⟨.invalid, fs.writes ++ [.dict (setEntry d key value)]⟩,
        ⟨defaults, false, .dict (setEntry d key value)⟩, .error .typeError) ∧
    getEntry? (setEntry d key value) key = some value ∧
    isValidJson FileState.invalid = false := by
  have hs : serializable (PyValue.dict (setEntry d key value)) = false :=
    serializableEntries_setEntry_false hval d key
  refine ⟨?_, getEntry?_setEntry_self d key value, rfl⟩
  simp [update_setting, reload_settings, pySetItem, save_settings, hs]

/-- Witness for C7 at a concrete input: empty store, non-serializable value
under key `k`. -/
theorem settings_c7_witness :
    serializable (PyValue.obj 1) = false ∧
    update_setting ⟨[], false, .dict []⟩ ⟨.absent, []⟩ "k" (PyValue.obj 1) =
      (⟨.invalid, [.dict [("k", PyValue.obj 1)]]⟩,
        ⟨[], false, .dict [("k", PyValue.obj 1)]⟩, .error .typeError) ∧
    getEntry? (setEntry [] "k" (PyValue.obj 1)) "k" = some (PyValue.obj 1) :=
  ⟨rfl,
    (settings_c7_update_nonserializable [] [] ⟨.absent, []⟩ "k" (PyValue.obj 1) rfl).1,
    (settings_c7_update_nonserializable [] [] ⟨.absent, []⟩ "k" (PyValue.obj 1) rfl).2.1⟩

/-! ### Claim C8 -/

/-- Claim C8: after the settings file has been externally overwritten with a
new valid JSON object `d2` that binds `key`, the next `get_setting` of an
EAGER (hard_fetch) store returns the value from the new file contents, while
a LAZY store's `get_setting` still answers from the in-memory mapping `s0`
it loaded at construction, untouched by the file. -/
theorem settings_c8_eager_lazy_divergence (defaults d2 s0 dL : Entries)
    (sE : PyValue) (fs : FS) (key : String) (dflt v2 : PyValue)
    (hser : serializableEntries defaults = true)
    (hd2 : serializableEntries d2 = true)
    (hfile : fs.file = .json (.dict d2))
    (hkey : getEntry? d2 key = some v2) :
    (get_setting ⟨defaults, true, sE⟩ fs key dflt).2.2 = .ok v2 ∧
    (get_setting ⟨dL, false, .dict s0⟩ fs key dflt).2.2 =
      .ok ((getEntry? s0 key).getD dflt) := by
  constructor
  · have h2 : (backfill defaults (PyValue.dict d2) fs).2 =
        .ok (.dict (patch d2 defaults)) := backfill_ser_ok hd2 hser
    rcases hload : load_settings defaults fs with ⟨fs1, r⟩
    simp only [load_settings, hfile] at hload
    rw [hload] at h2
    simp only at h2
    cases r with
    | error e0 => simp at h2
    | ok s =>
      rcases Except.ok.inj h2 with rfl
      have hload' : load_settings defaults fs = (fs1, .ok (.dict (patch d2 defaults))) := by
        simp only [load_settings, hfile]; exact hload
      simp [get_setting, reload_settings, hload', pyDictGet,
        patch_getEntry_present (hasKey_of_getEntry hkey) defaults, hkey]
  · simp [get_setting, reload_settings, pyDictGet]

/-- Witness for C8 at a concrete input: defaults `{a:1}`, both stores
constructed over `{a:1}`, external overwrite with `{a:7}`; the EAGER store
answers 7, the LAZY store still answers 1. -/
theorem settings_c8_witness :
    serializableEntries [("a", PyValue.int 1)] = true ∧
    serializableEntries [("a", PyValue.int 7)] = true ∧
    (FS.mk (.json (.dict [("a", PyValue.int 7)])) []).file =
      .json (.dict [("a", PyValue.int 7)]) ∧
    getEntry? [("a", PyValue.int 7)] "a" = some (PyValue.int 7) ∧
    (get_setting ⟨[("a", PyValue.int 1)], true, .dict [("a", PyValue.int 1)]⟩
        ⟨.json (.dict [("a", PyValue.int 7)]), []⟩ "a" .null).2.2 =
      .ok (PyValue.int 7) ∧
    (get_setting ⟨[("a", PyValue.int 1)], false, .dict [("a", PyValue.int 1)]⟩
        ⟨.json (.dict [("a", PyValue.int 7)]), []⟩ "a" .null).2.2 =
      .ok (PyValue.int 1) :=
  ⟨rfl, rfl, rfl, rfl,
    (settings_c8_eager_lazy_divergence [("a", PyValue.int 1)] [("a", PyValue.int 7)]
      [("a", PyValue.int 1)] [("a", PyValue.int 1)] (.dict [("a", PyValue.int 1)])
      ⟨.json (.dict [("a", PyValue.int 7)]), []⟩ "a" .null (PyValue.int 7)
      rfl rfl rfl rfl).1,
    (settings_c8_eager_lazy_divergence [("a", PyValue.int 1)] [("a", PyValue.int 7)]
      [("a", PyValue.int 1)] [("a", PyValue.int 1)] (.dict [("a", PyValue.int 1)])
      ⟨.json (.dict [("a", PyValue.int 7)]), []⟩ "a" .null (PyValue.int 7)
      rfl rfl rfl rfl).2⟩

/-! ### Claim C9 -/

/-- Claim C9: `update_setting` is not atomic with respect to errors: the
assignment into the in-memory mapping happens before the save is attempted,
so when the save raises (here: a non-serializable value), the in-memory
mapping afterwards still contains the key mapped to the value, the call
reports the `TypeError`, and the on-disk file (now invalid) has diverged
from the in-memory mapping. -/
theorem settings_c9_update_nonatomic (defaults d : Entries) (fs : FS)
    (key : String) (value : PyValue)
    (hval : serializable value = false) :
    (update_setting ⟨defaults, false, .dict d⟩ fs key value).2.1._settings =
      .dict (setEntry d key value) ∧
    getEntry? (setEntry d key value) key = some value ∧
    (update_setting ⟨defaults, false, .dict d⟩ fs key value).2.2 =
      .error .typeError ∧
    (update_setting ⟨defaults, false, .dict d⟩ fs key value).1.file = .invalid ∧
    (update_setting ⟨defaults, false, .dict d⟩ fs key value).1.file ≠
      .json ((update_setting ⟨defaults, false, .dict d⟩ fs key value).2.1._settings) := by
  have hs : serializable (PyValue.dict (setEntry d key value)) = false :=
    serializableEntries_setEntry_false hval d key
  refine ⟨?_, getEntry?_setEntry_self d key value, ?_, ?_, ?_⟩ <;>
    simp [update_setting, reload_settings, pySetItem, save_settings, hs]

/-- Witness for C9 at a concrete input. -/
theorem settings_c9_witness :
    serializable (PyValue.obj 2) = false ∧
    (update_setting ⟨[("a", PyValue.int 1)], false, .dict [("a", PyValue.int 1)]⟩
        ⟨.json (.dict [("a", PyValue.int 1)]), [.dict [("a", PyValue.int 1)]]⟩
        "b" (PyValue.obj 2)).2.1._settings =
      .dict (setEntry [("a", PyValue.int 1)] "b" (PyValue.obj 2)) ∧
    getEntry? (setEntry [("a", PyValue.int 1)] "b" (PyValue.obj 2)) "b" =
      some (PyValue.obj 2) ∧
    (update_setting ⟨[("a", PyValue.int 1)], false, .dict [("a", PyValue.int 1)]⟩
        ⟨.json (.dict [("a", PyValue.int 1)]), [.dict [("a", PyValue.int 1)]]⟩
        "b" (PyValue.obj 2)).2.2 = .error .typeError ∧
    (update_setting ⟨[("a", PyValue.int 1)], false, .dict [("a", PyValue.int 1)]⟩
        ⟨.json (.dict [("a", PyValue.int 1)]), [.dict [("a", PyValue.int 1)]]⟩
        "b" (PyValue.obj 2)).1.file = .invalid :=
  ⟨rfl,
    (settings_c9_update_nonatomic [("a", PyValue.int 1)] [("a", PyValue.int 1)]
      ⟨.json (.dict [("a", PyValue.int 1)]), [.dict [("a", PyValue.int 1)]]⟩
      "b" (PyValue.obj 2) rfl).1,
    (settings_c9_update_nonatomic [("a", PyValue.int 1)] [("a", PyValue.int 1)]
      ⟨.json (.dict [("a", PyValue.int 1)]), [.dict [("a", PyValue.int 1)]]⟩
      "b" (PyValue.obj 2) rfl).2.1,
    (settings_c9_update_nonatomic [("a", PyValue.int 1)] [("a", PyValue.int 1)]
      ⟨.json (.dict [("a", PyValue.int 1)]), [.dict [("a", PyValue.int 1)]]⟩
      "b" (PyValue.obj 2) rfl).2.2.1,
    (settings_c9_update_nonatomic [("a", PyValue.int 1)] [("a", PyValue.int 1)]
      ⟨.json (.dict [("a", PyValue.int 1)]), [.dict [("a", PyValue.int 1)]]⟩
      "b" (PyValue.obj 2) rfl).2.2.2.1⟩

/-! ### Claim C10 -/

/-- Claim C10: under LAZY policy, `get_setting` and `get_all_settings`
modify neither the in-memory mapping nor the filesystem (the whole `FS`,
write log included, is returned unchanged, for every store and file state);
under EAGER policy, a `get_setting` may rewrite the on-disk file (here:
replacing a corrupt file with the defaults) and a `get_all_settings` may
rewrite it too (here: back-filling a missing default key), in both cases
before returning. -/
theorem settings_c10_lazy_frame_eager_writes (defaults : Entries) (s : PyValue)
    (fs : FS) (key : String) (dflt : PyValue) :
    (get_setting ⟨defaults, false, s⟩ fs key dflt).1 = fs ∧
    (get_setting ⟨defaults, false, s⟩ fs key dflt).2.1 = ⟨defaults, false, s⟩ ∧
    (get_all_settings ⟨defaults, false, s⟩ fs).1 = fs ∧
    (get_all_settings ⟨defaults, false, s⟩ fs).2.1 = ⟨defaults, false, s⟩ ∧
    (get_setting ⟨[("a", PyValue.int 1)], true, .dict [("a", PyValue.int 1)]⟩
        ⟨.invalid, []⟩ "a" .null).1 =
      ⟨.json (.dict [("a", PyValue.int 1)]), [.dict [("a", PyValue.int 1)]]⟩ ∧
    (get_all_settings ⟨[("b", PyValue.int 2)], true, .dict [("b", PyValue.int 2)]⟩
        ⟨.json (.dict []), []⟩).1 =
      ⟨.json (.dict [("b", PyValue.int 2)]), [.dict [("b", PyValue.int 2)]]⟩ := by
  refine ⟨?_, ?_, ?_, ?_, rfl, rfl⟩ <;>
    simp [get_setting, get_all_settings, reload_settings]
